import Mathlib

/-!
Shallow embedding of the telemetry-studio visual layout editor core:
the widget tree and its mutation API (`EditorState`), the undo/redo
`HistoryManager`, and the pure geometry of the canvas component
(display-bounds resolution, container auto-bounds, resize arithmetic).

JavaScript numbers are modelled as rationals (`ℚ`); `Math.round` is
`⌊q + 1/2⌋`, which is exactly JavaScript's rounding for finite inputs.
A JS property-bag value is either a number or a string (`JVal`), with
JavaScript truthiness (`0` and `""` falsy).
-/

/-- A JavaScript value stored in a widget's `properties` bag. -/
inductive JVal : Type where
  | num (q : ℚ)
  | str (s : String)
deriving DecidableEq, Repr

/-- JavaScript truthiness of a property value: `0` and `""` are falsy. -/
def JVal.truthy : JVal → Bool
  | .num q => q ≠ 0
  | .str s => s ≠ ""

/-- Numeric reading of a property value (the source only reaches this
with numbers; strings would already be a type confusion there). -/
def JVal.toQ : JVal → ℚ
  | .num q => q
  | .str _ => 0

/-- JavaScript `Math.round` on a finite number: `⌊q + 1/2⌋`. -/
def jsRound (q : ℚ) : ℚ := (⌊q + 1/2⌋ : ℤ)

/-- A widget tree node, mirroring the object literal built in
`EditorState.addWidget`: id, type, name, x, y, properties, children,
locked, visible. -/
inductive Widget : Type where
  | mk (id : String) (type : String) (name : Option String) (x y : ℚ)
       (properties : List (String × JVal)) (children : List Widget)
       (locked : Bool) (visible : Bool)
deriving Repr

namespace Widget

def id : Widget → String | .mk i _ _ _ _ _ _ _ _ => i
def type : Widget → String | .mk _ t _ _ _ _ _ _ _ => t
def name : Widget → Option String | .mk _ _ n _ _ _ _ _ _ => n
def x : Widget → ℚ | .mk _ _ _ a _ _ _ _ _ => a
def y : Widget → ℚ | .mk _ _ _ _ b _ _ _ _ => b
def properties : Widget → List (String × JVal) | .mk _ _ _ _ _ p _ _ _ => p
def children : Widget → List Widget | .mk _ _ _ _ _ _ c _ _ => c
def locked : Widget → Bool | .mk _ _ _ _ _ _ _ l _ => l
def visible : Widget → Bool | .mk _ _ _ _ _ _ _ _ v => v

/-- Replace the children list (models in-place mutation of `.children`). -/
def withChildren : Widget → List Widget → Widget
  | .mk i t n a b p _ l v, cs => .mk i t n a b p cs l v

/-- Replace the properties bag. -/
def withProperties : Widget → List (String × JVal) → Widget
  | .mk i t n a b _ c l v, p => .mk i t n a b p c l v

end Widget

/-- Boolean equality on widgets (field-wise, recursing into children). -/
def wBeq : Widget → Widget → Bool
  | .mk i1 t1 n1 x1 y1 p1 c1 l1 v1, .mk i2 t2 n2 x2 y2 p2 c2 l2 v2 =>
    decide (i1 = i2) && decide (t1 = t2) && decide (n1 = n2) &&
    decide (x1 = x2) && decide (y1 = y2) && decide (p1 = p2) &&
    decide (l1 = l2) && decide (v1 = v2) && wsBeq c1 c2
where
  wsBeq : List Widget → List Widget → Bool
  | [], [] => true
  | a :: as, b :: bs => wBeq a b && wsBeq as bs
  | _, _ => false

/-- Structural induction principle for widget forests: to prove `P` of
every forest it suffices to prove it of `[]` and of `w :: rest` given it
for `w`'s children and for `rest`. -/
theorem forestInduction {P : List Widget → Prop}
    (hnil : P [])
    (hcons : ∀ (i t : String) (n : Option String) (a b : ℚ)
      (p : List (String × JVal)) (cs : List Widget) (l v : Bool)
      (rest : List Widget), P cs → P rest →
      P (Widget.mk i t n a b p cs l v :: rest)) :
    ∀ ws, P ws := by
  have key : ∀ (m : ℕ) (ws : List Widget), sizeOf ws ≤ m → P ws := by
    intro m
    induction m with
    | zero =>
      intro ws h
      match ws with
      | [] => exact hnil
      | w :: rest =>
        exfalso
        have : 0 < sizeOf (w :: rest) := by cases w; simp
        omega
    | succ k ih =>
      intro ws h
      match ws with
      | [] => exact hnil
      | Widget.mk i t n a b p cs l v :: rest =>
        have hsz : sizeOf (Widget.mk i t n a b p cs l v :: rest) =
            1 + (1 + sizeOf i + sizeOf t + sizeOf n + sizeOf a + sizeOf b +
              sizeOf p + sizeOf cs + sizeOf l + sizeOf v) + sizeOf rest := by
          simp
        exact hcons i t n a b p cs l v rest
          (ih cs (by omega)) (ih rest (by omega))
  exact fun ws => key (sizeOf ws) ws le_rfl

theorem wBeq_iff : ∀ as bs, wBeq.wsBeq as bs = true ↔ as = bs := by
  intro as
  induction as using forestInduction with
  | hnil =>
    intro bs
    cases bs with
    | nil => simp [wBeq.wsBeq]
    | cons b bs' => simp [wBeq.wsBeq]
  | hcons i t n a b p cs l v rest ihcs ihrest =>
    intro bs
    cases bs with
    | nil => simp [wBeq.wsBeq]
    | cons w2 bs' =>
      cases w2 with
      | mk i2 t2 n2 a2 b2 p2 cs2 l2 v2 =>
        simp only [wBeq.wsBeq, wBeq, Bool.and_eq_true, decide_eq_true_eq,
          List.cons.injEq, Widget.mk.injEq, ihcs cs2, ihrest bs']
        tauto

instance : DecidableEq Widget := fun a b =>
  decidable_of_iff (wBeq.wsBeq [a] [b] = true) (by
    rw [wBeq_iff]
    simp)

/-- `EditorState._findWidgetRecursive`: depth-first search over a forest,
first match wins (a node before its children, children before later
siblings). -/
def findList : List Widget → String → Option Widget
  | [], _ => none
  | Widget.mk i t n a b p cs l v :: rest, j =>
    if i = j then some (Widget.mk i t n a b p cs l v)
    else
      match findList cs j with
      | some r => some r
      | none => findList rest j

/-- `EditorState._removeWidgetRecursive`: depth-first search-and-splice.
Returns `some` of the new forest when a removal occurred, `none`
otherwise (the source returns a boolean and splices in place). -/
def removeRec : List Widget → String → Option (List Widget)
  | [], _ => none
  | Widget.mk i t n a b p cs l v :: rest, j =>
    if i = j then some rest
    else
      match removeRec cs j with
      | some cs' => some (Widget.mk i t n a b p cs' l v :: rest)
      | none =>
        match removeRec rest j with
        | some rest' => some (Widget.mk i t n a b p cs l v :: rest')
        | none => none

/-- The mutation performed by `addWidget` when a parent id is given:
`findWidget(parentId)` followed by `parent.children.push(widget)` through
the returned reference.  Traverses in the same depth-first order as
`findList`; appends `w` to the children of the first node whose id is
`pid`.  The boolean records whether such a node was found. -/
def appendAux : List Widget → String → Widget → List Widget × Bool
  | [], _, _ => ([], false)
  | Widget.mk i t n a b p cs l v :: rest, pid, w =>
    if i = pid then (Widget.mk i t n a b p (cs ++ [w]) l v :: rest, true)
    else
      match appendAux cs pid w with
      | (cs', true) => (Widget.mk i t n a b p cs' l v :: rest, true)
      | (_, false) =>
        match appendAux rest pid w with
        | (rest', bf) => (Widget.mk i t n a b p cs l v :: rest', bf)

/-! ## Widget-type metadata catalog -/

/-- A property definition from the metadata catalog.  `default` is
`some v` exactly when the source's `propDef.constraints` exists and
`constraints.default !== undefined`. -/
structure PropDef where
  name : String
  default : Option JVal
deriving DecidableEq, Repr

/-- Widget-type metadata (read-only catalog entry). -/
structure WidgetMeta where
  default_width : ℚ
  default_height : ℚ
  is_container : Bool
  properties : List PropDef
deriving DecidableEq, Repr

/-- `widgetMetadataByType`: the catalog indexed by type name. -/
abbrev Catalog := List (String × WidgetMeta)

/-- `EditorState._getDefaultProperties`: default property values drawn
from each definition's `constraints.default`, skipping `x` and `y`. -/
def defaultProps (md : WidgetMeta) : List (String × JVal) :=
  md.properties.foldl
    (fun acc pd =>
      if pd.name = "x" ∨ pd.name = "y" then acc
      else
        match pd.default with
        | some v => acc ++ [(pd.name, v)]
        | none => acc)
    []

/-! ## Layout document -/

structure LayoutMeta where
  name : String
  version : String
deriving DecidableEq, Repr

structure CanvasConfig where
  width : ℚ
  height : ℚ
  grid_enabled : Bool
  grid_size : ℚ
  snap_to_grid : Bool
deriving DecidableEq, Repr

structure Layout where
  id : String
  metadata : LayoutMeta
  canvas : CanvasConfig
  widgets : List Widget
deriving DecidableEq, Repr

/-! ## HistoryManager

The source stores snapshots as `JSON.stringify(layout)` strings and
compares them for equality.  With a fixed object shape the stringify of
two layouts is equal exactly when the layouts are structurally equal, so
snapshots are modelled as `Layout` values and string comparison as
structural equality. -/

structure HistoryState where
  history : List Layout
  currentIndex : ℤ
  maxHistory : ℕ
  lastSnapshot : Option Layout
  isRestoring : Bool
deriving DecidableEq, Repr

namespace HistoryState

/-- `HistoryManager.snapshot()` with the current layout `l`.  (The
`!this.state.layout` guard is dropped: the editor state is modelled
after initialisation, where a layout is always present.) -/
def snapshotOp (h : HistoryState) (l : Layout) : HistoryState :=
  if h.isRestoring then h
  else if some l = h.lastSnapshot then h
  else
    let hist := h.history.take (h.currentIndex + 1).toNat ++ [l]
    let idx := h.currentIndex + 1
    if hist.length > h.maxHistory then
      { h with history := hist.drop 1, currentIndex := idx - 1,
               lastSnapshot := some l }
    else
      { h with history := hist, currentIndex := idx, lastSnapshot := some l }

def canUndo (h : HistoryState) : Bool := h.currentIndex > 0

def canRedo (h : HistoryState) : Bool :=
  h.currentIndex < (h.history.length : ℤ) - 1

/-- `HistoryManager._restore()`: returns the updated manager state and
the layout now live in the editor.  `isRestoring` is set and then reset
within the call, so it is unchanged in the result; the emitted
`layout:restored` event only triggers re-renders. -/
def restoreOp (h : HistoryState) (cur : Layout) : HistoryState × Layout :=
  if h.currentIndex < 0 then (h, cur)
  else
    match h.history.get? h.currentIndex.toNat with
    | none => (h, cur)
    | some l => ({ h with lastSnapshot := some l }, l)

def undoOp (h : HistoryState) (cur : Layout) : HistoryState × Layout :=
  if h.canUndo then
    restoreOp { h with currentIndex := h.currentIndex - 1 } cur
  else (h, cur)

def redoOp (h : HistoryState) (cur : Layout) : HistoryState × Layout :=
  if h.canRedo then
    restoreOp { h with currentIndex := h.currentIndex + 1 } cur
  else (h, cur)

def clearOp (h : HistoryState) : HistoryState :=
  { h with history := [], currentIndex := -1, lastSnapshot := none }

end HistoryState

/-! ## EditorState -/

structure EditorState where
  layout : Layout
  /-- `selectedWidgets` is a JS `Set`: insertion order, no duplicates. -/
  selectedWidgets : List String
  widgetMetadataByType : Catalog
  isDirty : Bool
  history : HistoryState
deriving DecidableEq, Repr

namespace EditorState

def findWidget (s : EditorState) (i : String) : Option Widget :=
  findList s.layout.widgets i

def saveSnapshot (s : EditorState) : EditorState :=
  { s with history := s.history.snapshotOp s.layout }

/-- `EditorState.setLayout`: replaces the layout, resets dirty flag and
selection, clears history and takes an initial snapshot. -/
def setLayout (s : EditorState) (l : Layout) : EditorState :=
  { s with layout := l, isDirty := false, selectedWidgets := [],
           history := s.history.clearOp.snapshotOp l }

/-- `EditorState.addWidget(type, x, y, parentId)`.  `newId` stands for
the freshly generated random id.  Returns the updated state and the
value returned to the caller (`null` on unknown type). -/
def addWidget (s : EditorState) (ty : String) (x y : ℚ)
    (parentId : Option String) (newId : String) :
    EditorState × Option Widget :=
  match s.widgetMetadataByType.lookup ty with
  | none => (s, none)
  | some md =>
    let w : Widget := .mk newId ty none x y (defaultProps md) [] false true
    let widgets' :=
      match parentId with
      | some pid =>
        -- `if (parentId)`: the empty string is falsy in JS
        if pid = "" then s.layout.widgets ++ [w]
        -- parent found → push into its children; not found → unchanged
        else (appendAux s.layout.widgets pid w).1
      | none => s.layout.widgets ++ [w]
    let l' := { s.layout with widgets := widgets' }
    ({ s with layout := l', isDirty := true,
              history := s.history.snapshotOp l' }, some w)

/-- `EditorState.removeWidget(widgetId)`. -/
def removeWidget (s : EditorState) (i : String) : EditorState :=
  match removeRec s.layout.widgets i with
  | none => s
  | some ws' =>
    let l' := { s.layout with widgets := ws' }
    { s with layout := l',
             selectedWidgets := s.selectedWidgets.filter (fun j => j ≠ i),
             isDirty := true,
             history := s.history.snapshotOp l' }

/-- `EditorState.select(widgetIds, addToSelection)`. -/
def select (s : EditorState) (ids : List String) (add : Bool) : EditorState :=
  let base := if add then s.selectedWidgets else []
  { s with selectedWidgets :=
      ids.foldl (fun acc j => if acc.contains j then acc else acc ++ [j]) base }

def clearSelection (s : EditorState) : EditorState :=
  { s with selectedWidgets := [] }

/-- `HistoryManager.undo()` as observed through the editor: the cursor
moves and the restored layout replaces the live one.  The selection is
not touched by the restore path. -/
def undo (s : EditorState) : EditorState :=
  let (h, l) := s.history.undoOp s.layout
  { s with history := h, layout := l }

def redo (s : EditorState) : EditorState :=
  let (h, l) := s.history.redoOp s.layout
  { s with history := h, layout := l }

end EditorState

/-- `Canvas._onKeyDown` for Delete/Backspace: captures the selection
into an array and calls `removeWidget` on each id in turn. -/
def deleteSelected (s : EditorState) : EditorState :=
  if s.selectedWidgets.length > 0 then
    s.selectedWidgets.foldl (fun st i => st.removeWidget i) s
  else s

/-! ## Canvas geometry -/

/-- Widget types where the `size` property denotes box dimensions rather
than a font size (`WIDGETS_WITH_SIZE_AS_BOX` in the source). -/
def WIDGETS_WITH_SIZE_AS_BOX : List String :=
  ["moving_map", "journey_map", "moving_journey_map", "circuit_map",
   "compass", "compass_arrow", "asi", "msi", "gps_lock_icon", "icon",
   "cairo_circuit_map", "cairo_gauge_marker", "cairo_gauge_round_annotated",
   "cairo_gauge_arc_annotated", "cairo_gauge_donut"]

def lookupProp (w : Widget) (k : String) : Option JVal :=
  w.properties.lookup k

/-- A JavaScript `a || b || ... || d` chain over possibly-undefined
numbers: the first present-and-truthy value, else the literal default. -/
def firstTruthyQ : List (Option JVal) → ℚ → ℚ
  | [], d => d
  | none :: rest, d => firstTruthyQ rest d
  | some v :: rest, d => if v.truthy then v.toQ else firstTruthyQ rest d

/-- `WIDGETS_WITH_SIZE_AS_BOX.has(widget.type) ? widget.properties.size
: null`. -/
def sizeAsDimension (w : Widget) : Option JVal :=
  if WIDGETS_WITH_SIZE_AS_BOX.contains w.type then lookupProp w "size"
  else none

/-- Width resolution in `Canvas._getWidgetDisplayBounds` /
`_renderWidget`: `properties.width || properties._displayWidth ||
sizeAsDimension || metadata?.default_width || 100`. -/
def widgetWidth (cat : Catalog) (w : Widget) : ℚ :=
  firstTruthyQ
    [lookupProp w "width", lookupProp w "_displayWidth", sizeAsDimension w,
     (cat.lookup w.type).map (fun m => JVal.num m.default_width)] 100

/-- Height resolution: `properties.height || properties._displayHeight ||
sizeAsDimension || metadata?.default_height || 50`. -/
def widgetHeight (cat : Catalog) (w : Widget) : ℚ :=
  firstTruthyQ
    [lookupProp w "height", lookupProp w "_displayHeight", sizeAsDimension w,
     (cat.lookup w.type).map (fun m => JVal.num m.default_height)] 50

structure Bounds where
  x : ℚ
  y : ℚ
  width : ℚ
  height : ℚ
deriving DecidableEq, Repr

/-- `Canvas._getWidgetDisplayBounds(widget)`: effective bounds after
alignment adjustment of `x`. -/
def widgetDisplayBounds (cat : Catalog) (w : Widget) : Bounds :=
  let width := widgetWidth cat w
  let height := widgetHeight cat w
  let align := lookupProp w "align"
  let displayX :=
    if align = some (.str "right") then w.x - width
    else if align = some (.str "centre") ∨ align = some (.str "center") then
      w.x - width / 2
    else w.x
  ⟨displayX, w.y, width, height⟩

/-- One iteration of the `for (const child of children)` loop in
`Canvas._getChildrenBounds`: skip invisible children, otherwise extend
the running `minX/minY/maxX/maxY`.  The source initialises the
accumulator to `±Infinity`; `none` models the state where no visible
child has been seen (where `min Infinity v = v`). -/
def boundsStep (cat : Catalog) (acc : Option (ℚ × ℚ × ℚ × ℚ)) (c : Widget) :
    Option (ℚ × ℚ × ℚ × ℚ) :=
  if !c.visible then acc
  else
    let b := widgetDisplayBounds cat c
    match acc with
    | none => some (b.x, b.y, b.x + b.width, b.y + b.height)
    | some (mx, my, hx, hy) =>
      some (min mx b.x, min my b.y, max hx (b.x + b.width),
            max hy (b.y + b.height))

/-- `Canvas._getChildrenBounds(children)`: union bounding box of the
visible children, `null` when there is none (the source's `minX ===
Infinity` check, which also covers the empty/`null` children list). -/
def childrenBounds (cat : Catalog) (children : List Widget) : Option Bounds :=
  match children.foldl (boundsStep cat) none with
  | none => none
  | some (mx, my, hx, hy) => some ⟨mx, my, hx - mx, hy - my⟩

/-! ## Resize arithmetic (`Canvas._handleResize`) -/

/-- The gesture state captured at pointer-down on a resize handle. -/
structure ResizeState where
  handle : String
  startX : ℚ
  startY : ℚ
  startWidth : ℚ
  startHeight : ℚ
  startWidgetX : ℚ
  startWidgetY : ℚ
deriving DecidableEq, Repr

/-- Grid snapping: `Math.round(v / gridSize) * gridSize`. -/
def snapQ (g : ℚ) (q : ℚ) : ℚ := jsRound (q / g) * g

/-- The computation inside `Canvas._handleResize` for a pointer at
canvas coordinates `(cx, cy)`: handle-specific size/anchor rules, then
optional grid snapping, then `Math.round` of each value.  Returns
`(newX, newY, newWidth, newHeight)` as committed to the widget. -/
def handleResizeCalc (rs : ResizeState) (cx cy : ℚ) (snap : Bool)
    (grid : ℚ) : ℚ × ℚ × ℚ × ℚ :=
  let deltaX := cx - rs.startX
  let deltaY := cy - rs.startY
  let minSize : ℚ := 20
  let step :=
    if rs.handle = "e" then
      (max minSize (rs.startWidth + deltaX), rs.startHeight,
       rs.startWidgetX, rs.startWidgetY)
    else if rs.handle = "w" then
      let nw := max minSize (rs.startWidth - deltaX)
      (nw, rs.startHeight, rs.startWidgetX + (rs.startWidth - nw),
       rs.startWidgetY)
    else if rs.handle = "s" then
      (rs.startWidth, max minSize (rs.startHeight + deltaY),
       rs.startWidgetX, rs.startWidgetY)
    else if rs.handle = "n" then
      let nh := max minSize (rs.startHeight - deltaY)
      (rs.startWidth, nh, rs.startWidgetX,
       rs.startWidgetY + (rs.startHeight - nh))
    else if rs.handle = "se" then
      (max minSize (rs.startWidth + deltaX),
       max minSize (rs.startHeight + deltaY),
       rs.startWidgetX, rs.startWidgetY)
    else if rs.handle = "sw" then
      let nw := max minSize (rs.startWidth - deltaX)
      (nw, max minSize (rs.startHeight + deltaY),
       rs.startWidgetX + (rs.startWidth - nw), rs.startWidgetY)
    else if rs.handle = "ne" then
      let nh := max minSize (rs.startHeight - deltaY)
      (max minSize (rs.startWidth + deltaX), nh, rs.startWidgetX,
       rs.startWidgetY + (rs.startHeight - nh))
    else if rs.handle = "nw" then
      let nw := max minSize (rs.startWidth - deltaX)
      let nh := max minSize (rs.startHeight - deltaY)
      (nw, nh, rs.startWidgetX + (rs.startWidth - nw),
       rs.startWidgetY + (rs.startHeight - nh))
    else
      (rs.startWidth, rs.startHeight, rs.startWidgetX, rs.startWidgetY)
  match step with
  | (w0, h0, x0, y0) =>
    let w1 := if snap then snapQ grid w0 else w0
    let h1 := if snap then snapQ grid h0 else h0
    let x1 := if snap then snapQ grid x0 else x0
    let y1 := if snap then snapQ grid y0 else y0
    (jsRound x1, jsRound y1, jsRound w1, jsRound h1)

/-! ## Shared concrete fixtures -/

/-- A minimal catalog entry: a plain text widget type. -/
def textMeta : WidgetMeta := ⟨100, 50, false, []⟩

/-- A catalog entry for a container type. -/
def hboxMeta : WidgetMeta := ⟨100, 50, true, []⟩

def cat0 : Catalog := [("text", textMeta), ("hbox", hboxMeta)]

def canvas0 : CanvasConfig := ⟨1920, 1080, true, 10, false⟩

/-- A blank layout as produced by `EditorState.newLayout()`. -/
def layout0 : Layout := ⟨"layout1", ⟨"Untitled Layout", "1.0"⟩, canvas0, []⟩

/-- The history state after `new HistoryManager(state)` (also the state
after `clear()` up to the `maxHistory` field, which is always 50). -/
def freshHistory : HistoryState := ⟨[], -1, 50, none, false⟩

/-- An editor immediately after initialisation with a blank layout. -/
def ed0 : EditorState :=
  EditorState.mk layout0 [] cat0 false (freshHistory.snapshotOp layout0)

/-- A right-aligned text widget used to witness C7. -/
def wRight : Widget :=
  .mk "r1" "text" none 500 40 [("width", .num 30), ("align", .str "right")]
    [] false true

def layoutB : Layout := { layout0 with id := "layoutB" }
def layoutC : Layout := { layout0 with id := "layoutC" }
def layoutD : Layout := { layout0 with id := "layoutD" }

/-- Delete every binding of key `k` from a property bag. -/
def eraseKey (k : String) (l : List (String × JVal)) : List (String × JVal) :=
  l.filter (fun p => p.1 ≠ k)

/-- A map widget with an explicit `size: 0`, for the C10 witness. -/
def wZeroSize : Widget :=
  .mk "m1" "moving_map" none 0 0 [("size", .num 0)] [] false true

/-- A pointer-down on the `se` handle of a widget anchored at `(15, 15)`
with size 100×100, pointer at canvas `(200, 200)`. -/
def rsC6 : ResizeState := ⟨"se", 200, 200, 100, 100, 15, 15⟩

/-- One merge step of the running union box, as a standalone function:
`(minX, minY, maxX, maxY)` extended by one child's bounds. -/
def mergeBounds (a : ℚ × ℚ × ℚ × ℚ) (b : Bounds) : ℚ × ℚ × ℚ × ℚ :=
  (min a.1 b.x, min a.2.1 b.y, max a.2.2.1 (b.x + b.width),
   max a.2.2.2 (b.y + b.height))

/-- The container bounds as the spec sentence words them: the union
bounding box over exactly the visible children's effective bounds,
`null` when there is no visible child. -/
def childrenBoundsSpec (cat : Catalog) (children : List Widget) :
    Option Bounds :=
  match (children.filter (fun c => c.visible)).map (widgetDisplayBounds cat) with
  | [] => none
  | b :: bs =>
    let mx := bs.foldl (fun m bb => min m bb.x) b.x
    let my := bs.foldl (fun m bb => min m bb.y) b.y
    let hx := bs.foldl (fun m bb => max m (bb.x + bb.width)) (b.x + b.width)
    let hy := bs.foldl (fun m bb => max m (bb.y + bb.height)) (b.y + b.height)
    some ⟨mx, my, hx - mx, hy - my⟩

/-- The two visible children of the C8 scenario: effective bounds
`(0,0,50,50)` and `(100,100,20,20)`. -/
def cw1 : Widget :=
  .mk "c1" "text" none 0 0 [("width", .num 50), ("height", .num 50)] [] false
    true

def cw2 : Widget :=
  .mk "c2" "text" none 100 100 [("width", .num 20), ("height", .num 20)] []
    false true

def wA0 : Widget := .mk "wA" "text" none 1 1 [] [] false true

def layoutA : Layout := { layout0 with widgets := [wA0] }

/-- Total number of nodes in a widget forest. -/
def widgetCount : List Widget → ℕ
  | [] => 0
  | Widget.mk _ _ _ _ _ _ cs _ _ :: rest => 1 + widgetCount cs + widgetCount rest

def edC2w : EditorState :=
  ⟨layoutA, ["wA"], cat0, true, ⟨[layoutA], 0, 50, some layoutA, false⟩⟩

def wB0 : Widget := .mk "wB" "text" none 2 2 [] [] false true

def layoutAB : Layout := { layout0 with widgets := [wA0, wB0] }

def layoutOnlyB : Layout := { layout0 with widgets := [wB0] }

/-- A loaded two-widget layout with both widgets selected: the state
reached by `setLayout` on a two-widget document followed by select. -/
def edC2s : EditorState := (ed0.setLayout layoutAB).select ["wA", "wB"] false

@[simp] theorem id_withChildren (w : Widget) (cs : List Widget) :
    (w.withChildren cs).id = w.id := by cases w; rfl

@[simp] theorem children_withChildren (w : Widget) (cs : List Widget) :
    (w.withChildren cs).children = cs := by cases w; rfl

/-! ## Projection lemmas -/

@[simp] theorem Widget.id_mk (i t : String) (n : Option String) (a b : ℚ)
    (p : List (String × JVal)) (c : List Widget) (l v : Bool) :
    (Widget.mk i t n a b p c l v).id = i := rfl

@[simp] theorem Widget.type_mk (i t : String) (n : Option String) (a b : ℚ)
    (p : List (String × JVal)) (c : List Widget) (l v : Bool) :
    (Widget.mk i t n a b p c l v).type = t := rfl

@[simp] theorem Widget.x_mk (i t : String) (n : Option String) (a b : ℚ)
    (p : List (String × JVal)) (c : List Widget) (l v : Bool) :
    (Widget.mk i t n a b p c l v).x = a := rfl

@[simp] theorem Widget.y_mk (i t : String) (n : Option String) (a b : ℚ)
    (p : List (String × JVal)) (c : List Widget) (l v : Bool) :
    (Widget.mk i t n a b p c l v).y = b := rfl

@[simp] theorem Widget.properties_mk (i t : String) (n : Option String)
    (a b : ℚ) (p : List (String × JVal)) (c : List Widget) (l v : Bool) :
    (Widget.mk i t n a b p c l v).properties = p := rfl

@[simp] theorem Widget.children_mk (i t : String) (n : Option String)
    (a b : ℚ) (p : List (String × JVal)) (c : List Widget) (l v : Bool) :
    (Widget.mk i t n a b p c l v).children = c := rfl

@[simp] theorem Widget.visible_mk (i t : String) (n : Option String)
    (a b : ℚ) (p : List (String × JVal)) (c : List Widget) (l v : Bool) :
    (Widget.mk i t n a b p c l v).visible = v := rfl

@[simp] theorem Widget.properties_withProperties (w : Widget)
    (p : List (String × JVal)) : (w.withProperties p).properties = p := by
  cases w; rfl

@[simp] theorem Widget.type_withProperties (w : Widget)
    (p : List (String × JVal)) : (w.withProperties p).type = w.type := by
  cases w; rfl

@[simp] theorem Widget.x_withProperties (w : Widget)
    (p : List (String × JVal)) : (w.withProperties p).x = w.x := by
  cases w; rfl

@[simp] theorem Widget.y_withProperties (w : Widget)
    (p : List (String × JVal)) : (w.withProperties p).y = w.y := by
  cases w; rfl

/-! ## C7: alignment adjustment in `_getWidgetDisplayBounds` -/

/-- C7: for every widget with resolved width `w`, the effective bounds
shift `x` left by `w` when `align = 'right'`, by `w/2` when `align` is
`'center'`/`'centre'`, and not at all otherwise; `y` is returned
unchanged regardless of alignment. -/
theorem c7_effectiveBounds_align (cat : Catalog) (w : Widget) :
    (widgetDisplayBounds cat w).y = w.y ∧
    (widgetDisplayBounds cat w).width = widgetWidth cat w ∧
    (lookupProp w "align" = some (.str "right") →
      (widgetDisplayBounds cat w).x = w.x - widgetWidth cat w) ∧
    ((lookupProp w "align" = some (.str "center") ∨
      lookupProp w "align" = some (.str "centre")) →
      (widgetDisplayBounds cat w).x = w.x - widgetWidth cat w / 2) ∧
    (lookupProp w "align" ≠ some (.str "right") →
      lookupProp w "align" ≠ some (.str "center") →
      lookupProp w "align" ≠ some (.str "centre") →
      (widgetDisplayBounds cat w).x = w.x) := by
  refine ⟨rfl, rfl, ?_, ?_, ?_⟩
  · intro h
    simp [widgetDisplayBounds, h]
  · intro h
    rcases h with h | h <;> simp [widgetDisplayBounds, h]
  · intro h1 h2 h3
    simp [widgetDisplayBounds, h1, h2, h3]

theorem c7_witness :
    (widgetDisplayBounds cat0 wRight).x = wRight.x - widgetWidth cat0 wRight :=
  (c7_effectiveBounds_align cat0 wRight).2.2.1 (by rfl)

/-! ## C9: `addWidget` with an unknown type -/

/-- C9: `addWidget` with a type absent from the metadata catalog returns
`null` to the caller and leaves the whole editor state — widget tree,
history, dirty flag — completely unchanged. -/
theorem c9_addWidget_unknown_type (s : EditorState) (ty : String)
    (x y : ℚ) (pid : Option String) (newId : String)
    (h : s.widgetMetadataByType.lookup ty = none) :
    s.addWidget ty x y pid newId = (s, none) := by
  simp [EditorState.addWidget, h]

theorem c9_witness :
    ed0.addWidget "speedometer_xxl" 10 10 none "w_1" = (ed0, none) :=
  c9_addWidget_unknown_type ed0 "speedometer_xxl" 10 10 none "w_1" (by rfl)

/-! ## C4: linear history -/

/-- C4: starting from a fresh history, after `snapshot()` with three
pairwise-fresh layouts, `undo()` twice (which lands back on the first
layout), then a mutated layout and one more `snapshot()`, `canRedo()` is
false and the two abandoned future entries have been discarded. -/
theorem c4_history_linear (L1 L2 L3 L4 : Layout)
    (h21 : L2 ≠ L1) (h32 : L3 ≠ L2) (h41 : L4 ≠ L1) :
    let h3 := ((freshHistory.snapshotOp L1).snapshotOp L2).snapshotOp L3
    let u1 := h3.undoOp L3
    let u2 := u1.1.undoOp u1.2
    let final := u2.1.snapshotOp L4
    final.canRedo = false ∧ final.history = [L1, L4] ∧ u2.2 = L1 := by
  have e1 : freshHistory.snapshotOp L1 =
      ⟨[L1], 0, 50, some L1, false⟩ := by
    simp [HistoryState.snapshotOp, freshHistory]
  have e2 : (HistoryState.mk [L1] 0 50 (some L1) false).snapshotOp L2 =
      ⟨[L1, L2], 1, 50, some L2, false⟩ := by
    simp [HistoryState.snapshotOp, h21]
  have e3 : (HistoryState.mk [L1, L2] 1 50 (some L2) false).snapshotOp L3 =
      ⟨[L1, L2, L3], 2, 50, some L3, false⟩ := by
    simp [HistoryState.snapshotOp, h32]
  have e4 : (HistoryState.mk [L1, L2, L3] 2 50 (some L3) false).undoOp L3 =
      (⟨[L1, L2, L3], 1, 50, some L2, false⟩, L2) := by
    simp [HistoryState.undoOp, HistoryState.canUndo, HistoryState.restoreOp]
  have e5 : (HistoryState.mk [L1, L2, L3] 1 50 (some L2) false).undoOp L2 =
      (⟨[L1, L2, L3], 0, 50, some L1, false⟩, L1) := by
    simp [HistoryState.undoOp, HistoryState.canUndo, HistoryState.restoreOp]
  have e6 : (HistoryState.mk [L1, L2, L3] 0 50 (some L1) false).snapshotOp L4 =
      ⟨[L1, L4], 1, 50, some L4, false⟩ := by
    simp [HistoryState.snapshotOp, h41]
  simp [e1, e2, e3, e4, e5, e6, HistoryState.canRedo]

theorem c4_witness :
    ((((((freshHistory.snapshotOp layout0).snapshotOp layoutB).snapshotOp
        layoutC).undoOp layoutC).1.undoOp
        ((((freshHistory.snapshotOp layout0).snapshotOp layoutB).snapshotOp
        layoutC).undoOp layoutC).2).1.snapshotOp layoutD).canRedo = false :=
  (c4_history_linear layout0 layoutB layoutC layoutD
    (by simp [layoutB, layout0]) (by simp [layoutB, layoutC, layout0])
    (by simp [layoutD, layout0])).1

/-! ## C5: snapshot deduplication -/

/-- C5 counterexample: in the (reachable) history state right after a
snapshot of the current layout, calling `snapshot()` twice more with the
unchanged layout adds zero entries — not the "exactly one new history
entry" the claim asserts for every history state. -/
theorem c5_counterexample :
    ¬ ((((freshHistory.snapshotOp layout0).snapshotOp layout0).snapshotOp
        layout0).history.length
        = (freshHistory.snapshotOp layout0).history.length + 1) := by
  have e1 : freshHistory.snapshotOp layout0 =
      ⟨[layout0], 0, 50, some layout0, false⟩ := by
    simp [HistoryState.snapshotOp, freshHistory]
  have e2 : (HistoryState.mk [layout0] 0 50 (some layout0) false).snapshotOp
      layout0 = ⟨[layout0], 0, 50, some layout0, false⟩ := by
    simp [HistoryState.snapshotOp]
  rw [e1, e2, e2]
  simp

/-- C5 amended: the second of two consecutive `snapshot()` calls with an
unchanged layout is always a complete no-op (so the pair never yields
more than one new entry); the pair yields exactly one new entry when the
layout differs from the last snapshot, the manager is not restoring, the
cursor is at the top and the capacity is not yet reached — but zero when
the layout already equals the last snapshot. -/
theorem c5_snapshot_dedup (h : HistoryState) (l : Layout) :
    ((h.snapshotOp l).snapshotOp l = h.snapshotOp l) ∧
    (h.isRestoring = false → some l ≠ h.lastSnapshot →
      h.currentIndex = (h.history.length : ℤ) - 1 →
      h.history.length < h.maxHistory →
      (h.snapshotOp l).history.length = h.history.length + 1 ∧
      (h.snapshotOp l).currentIndex = h.currentIndex + 1) ∧
    (some l = h.lastSnapshot → h.snapshotOp l = h) := by
  have hkey : ∀ h' : HistoryState, h'.isRestoring = false →
      h'.lastSnapshot = some l → h'.snapshotOp l = h' := by
    intro h' h1 h2
    simp [HistoryState.snapshotOp, h1, h2]
  refine ⟨?_, ?_, ?_⟩
  · cases hr : h.isRestoring with
    | true => simp [HistoryState.snapshotOp, hr]
    | false =>
      by_cases hl : some l = h.lastSnapshot
      · simp [HistoryState.snapshotOp, hr, hl]
      · have hfields : (h.snapshotOp l).isRestoring = false ∧
            (h.snapshotOp l).lastSnapshot = some l := by
          unfold HistoryState.snapshotOp
          rw [if_neg (by simp [hr]), if_neg hl]
          dsimp only
          split_ifs <;> exact ⟨hr, rfl⟩
        exact hkey _ hfields.1 hfields.2
  · intro hr hl hidx hcap
    have htoNat : (h.currentIndex + 1).toNat = h.history.length := by omega
    unfold HistoryState.snapshotOp
    rw [if_neg (by simp [hr]), if_neg hl, htoNat, List.take_length]
    have hlen : (h.history ++ [l]).length = h.history.length + 1 := by simp
    rw [if_neg (by rw [hlen]; omega)]
    simp
  · intro hl
    simp [HistoryState.snapshotOp, hl]

theorem c5_witness :
    (freshHistory.snapshotOp layout0).history.length
      = freshHistory.history.length + 1 :=
  ((c5_snapshot_dedup freshHistory layout0).2.1 (by rfl)
    (by simp [freshHistory]) (by rfl) (by simp [freshHistory])).1

/-! ## C10: a zero-valued size property is skipped as falsy -/

theorem lookup_eraseKey_self (k : String) (l : List (String × JVal)) :
    (eraseKey k l).lookup k = none := by
  induction l with
  | nil => rfl
  | cons p t ih =>
    rcases p with ⟨a, b⟩
    by_cases hp : a = k
    · simpa [eraseKey, List.filter_cons, hp] using ih
    · simpa [eraseKey, List.filter_cons, hp, List.lookup,
        beq_false_of_ne (Ne.symm hp)] using ih

theorem lookup_eraseKey_other (k k' : String) (h : k' ≠ k)
    (l : List (String × JVal)) :
    (eraseKey k l).lookup k' = l.lookup k' := by
  induction l with
  | nil => rfl
  | cons p t ih =>
    rcases p with ⟨a, b⟩
    by_cases hp : a = k
    · subst hp
      simpa [eraseKey, List.filter_cons, List.lookup,
        beq_false_of_ne h] using ih
    · by_cases hq : k' = a
      · simp [eraseKey, List.filter_cons, hp, List.lookup, hq]
      · simpa [eraseKey, List.filter_cons, hp, List.lookup,
          beq_false_of_ne hq] using ih

/-- Skipping a missing or falsy entry anywhere in a `||` fallback chain
leaves its value unchanged. -/
theorem firstTruthyQ_skip (o : Option JVal)
    (ho : ∀ v, o = some v → v.truthy = false) :
    ∀ (pre rest : List (Option JVal)) (d : ℚ),
      firstTruthyQ (pre ++ o :: rest) d = firstTruthyQ (pre ++ rest) d := by
  intro pre
  induction pre with
  | nil =>
    intro rest d
    cases o with
    | none => simp [firstTruthyQ]
    | some v => simp [firstTruthyQ, ho v rfl]
  | cons e pre' ih =>
    intro rest d
    cases e with
    | none => simpa [firstTruthyQ] using ih rest d
    | some v =>
      by_cases hv : v.truthy
      · simp [firstTruthyQ, hv]
      · simpa [firstTruthyQ, hv] using ih rest d

/-- C10: size resolution treats a falsy explicit value as absent — a
widget whose `properties.width` (resp. `height`, resp. `size`) equals 0
resolves to exactly the same display size as the widget with that
property deleted: the 0 is skipped and the chain falls through to the
next fallback. -/
theorem c10_zero_size_skipped (cat : Catalog) (w : Widget) :
    (lookupProp w "width" = some (.num 0) →
      widgetWidth cat w =
        widgetWidth cat (w.withProperties (eraseKey "width" w.properties))) ∧
    (lookupProp w "height" = some (.num 0) →
      widgetHeight cat w =
        widgetHeight cat (w.withProperties (eraseKey "height" w.properties))) ∧
    (lookupProp w "size" = some (.num 0) →
      widgetWidth cat w =
        widgetWidth cat (w.withProperties (eraseKey "size" w.properties)) ∧
      widgetHeight cat w =
        widgetHeight cat (w.withProperties (eraseKey "size" w.properties))) := by
  have hother : ∀ (k k' : String), k' ≠ k →
      lookupProp (w.withProperties (eraseKey k w.properties)) k'
        = lookupProp w k' := by
    intro k k' hkk
    simp [lookupProp, lookup_eraseKey_other k k' hkk]
  have hself : ∀ k : String,
      lookupProp (w.withProperties (eraseKey k w.properties)) k = none := by
    intro k
    simp [lookupProp, lookup_eraseKey_self]
  have hzero : ∀ v : JVal, some (JVal.num 0) = some v → v.truthy = false := by
    intro v hv
    cases hv
    rfl
  have hnone : ∀ v : JVal, (none : Option JVal) = some v → v.truthy = false := by
    intro v hv
    cases hv
  refine ⟨?_, ?_, ?_⟩
  · intro h
    have hsz : sizeAsDimension (w.withProperties (eraseKey "width" w.properties))
        = sizeAsDimension w := by
      simp [sizeAsDimension, hother "width" "size" (by decide)]
    rw [widgetWidth, widgetWidth, h, hself "width",
      hother "width" "_displayWidth" (by decide), hsz,
      Widget.type_withProperties]
    exact (firstTruthyQ_skip (some (JVal.num 0)) hzero [] _ 100).trans
      (firstTruthyQ_skip none hnone [] _ 100).symm
  · intro h
    have hsz : sizeAsDimension (w.withProperties (eraseKey "height" w.properties))
        = sizeAsDimension w := by
      simp [sizeAsDimension, hother "height" "size" (by decide)]
    rw [widgetHeight, widgetHeight, h, hself "height",
      hother "height" "_displayHeight" (by decide), hsz,
      Widget.type_withProperties]
    exact (firstTruthyQ_skip (some (JVal.num 0)) hzero [] _ 50).trans
      (firstTruthyQ_skip none hnone [] _ 50).symm
  · intro h
    have hszL : sizeAsDimension w =
        if WIDGETS_WITH_SIZE_AS_BOX.contains w.type then some (JVal.num 0)
        else none := by
      simp [sizeAsDimension, h]
    have hszR : sizeAsDimension (w.withProperties (eraseKey "size" w.properties))
        = none := by
      simp [sizeAsDimension, hself "size"]
    constructor
    · rw [widgetWidth, widgetWidth, hszL, hszR,
        hother "size" "width" (by decide),
        hother "size" "_displayWidth" (by decide), Widget.type_withProperties]
      by_cases hbox : WIDGETS_WITH_SIZE_AS_BOX.contains w.type
      · rw [if_pos hbox]
        exact (firstTruthyQ_skip (some (JVal.num 0)) hzero
            [lookupProp w "width", lookupProp w "_displayWidth"] _ 100).trans
          (firstTruthyQ_skip none hnone
            [lookupProp w "width", lookupProp w "_displayWidth"] _ 100).symm
      · rw [if_neg hbox]
    · rw [widgetHeight, widgetHeight, hszL, hszR,
        hother "size" "height" (by decide),
        hother "size" "_displayHeight" (by decide), Widget.type_withProperties]
      by_cases hbox : WIDGETS_WITH_SIZE_AS_BOX.contains w.type
      · rw [if_pos hbox]
        exact (firstTruthyQ_skip (some (JVal.num 0)) hzero
            [lookupProp w "height", lookupProp w "_displayHeight"] _ 50).trans
          (firstTruthyQ_skip none hnone
            [lookupProp w "height", lookupProp w "_displayHeight"] _ 50).symm
      · rw [if_neg hbox]

theorem c10_witness :
    widgetWidth cat0 wZeroSize =
      widgetWidth cat0
        (wZeroSize.withProperties (eraseKey "size" wZeroSize.properties)) :=
  ((c10_zero_size_skipped cat0 wZeroSize).2.2 (by rfl)).1

/-! ## C6: resize anchor behaviour -/

theorem jsRound_intCast (n : ℤ) : jsRound (n : ℚ) = n := by
  unfold jsRound
  rw [add_comm, Int.floor_add_int]
  norm_num

theorem abs_jsRound_sub_le (q : ℚ) : |jsRound q - q| ≤ 1 / 2 := by
  unfold jsRound
  have h1 : ((⌊q + 1 / 2⌋ : ℤ) : ℚ) ≤ q + 1 / 2 := Int.floor_le _
  have h2 : q + 1 / 2 < (⌊q + 1 / 2⌋ : ℤ) + 1 := Int.lt_floor_add_one _
  rw [abs_le]
  constructor <;> linarith

theorem snapQ_int (gz : ℤ) (q : ℚ) : ∃ m : ℤ, snapQ (gz : ℚ) q = (m : ℚ) := by
  refine ⟨⌊q / (gz : ℚ) + 1 / 2⌋ * gz, ?_⟩
  unfold snapQ jsRound
  push_cast
  ring

theorem jsRound_snapQ (gz : ℤ) (q : ℚ) :
    jsRound (snapQ (gz : ℚ) q) = snapQ (gz : ℚ) q := by
  obtain ⟨m, hm⟩ := snapQ_int gz q
  rw [hm, jsRound_intCast]

theorem abs_snapQ_sub_le (g : ℚ) (hg : 0 < g) (q : ℚ) :
    |snapQ g q - q| ≤ g / 2 := by
  have h := abs_jsRound_sub_le (q / g)
  have key : snapQ g q - q = (jsRound (q / g) - q / g) * g := by
    unfold snapQ
    field_simp
  rw [key, abs_mul, abs_of_pos hg]
  calc |jsRound (q / g) - q / g| * g ≤ 1 / 2 * g :=
        mul_le_mul_of_nonneg_right h (le_of_lt hg)
    _ = g / 2 := by ring

/-- C6 counterexample: with snap-to-grid enabled (grid 10), a `se`
resize move to `(210, 210)` snaps the widget's `x` from 15 to 20 — the
`se` handle does not leave the anchor unchanged. -/
theorem c6_counterexample :
    (handleResizeCalc rsC6 210 210 true 10).1 ≠ rsC6.startWidgetX := by
  have h1 : (handleResizeCalc rsC6 210 210 true 10).1 = 20 := by
    simp [handleResizeCalc, rsC6, snapQ, jsRound]
    norm_num
  rw [h1]
  simp [rsC6]

/-- C6 amended: a `se` move leaves the anchor unchanged when snapping is
off (given an integer anchor); with snapping on the anchor is exactly
grid-snapped (moved at most `g/2` per axis) but otherwise unshifted.  A
`nw` move keeps the bottom-right corner of the effective bounds exactly
fixed when snapping is off (integer inputs), and within one grid unit
`g` when snapping is on. -/
theorem c6_resize_anchor_rules (rs : ResizeState) (cx cy : ℚ) (gz : ℤ)
    (hg : 0 < gz) :
    (rs.handle = "se" →
      (∀ ax ay : ℤ, rs.startWidgetX = ax → rs.startWidgetY = ay →
        (handleResizeCalc rs cx cy false (gz : ℚ)).1 = rs.startWidgetX ∧
        (handleResizeCalc rs cx cy false (gz : ℚ)).2.1 = rs.startWidgetY) ∧
      ((handleResizeCalc rs cx cy true (gz : ℚ)).1
          = snapQ (gz : ℚ) rs.startWidgetX ∧
       (handleResizeCalc rs cx cy true (gz : ℚ)).2.1
          = snapQ (gz : ℚ) rs.startWidgetY ∧
       |(handleResizeCalc rs cx cy true (gz : ℚ)).1 - rs.startWidgetX|
          ≤ (gz : ℚ) / 2 ∧
       |(handleResizeCalc rs cx cy true (gz : ℚ)).2.1 - rs.startWidgetY|
          ≤ (gz : ℚ) / 2)) ∧
    (rs.handle = "nw" →
      (∀ ax ay sw sh dx dy : ℤ, rs.startWidgetX = ax → rs.startWidgetY = ay →
        rs.startWidth = sw → rs.startHeight = sh →
        cx - rs.startX = dx → cy - rs.startY = dy →
        (handleResizeCalc rs cx cy false (gz : ℚ)).1 +
          (handleResizeCalc rs cx cy false (gz : ℚ)).2.2.1
          = rs.startWidgetX + rs.startWidth ∧
        (handleResizeCalc rs cx cy false (gz : ℚ)).2.1 +
          (handleResizeCalc rs cx cy false (gz : ℚ)).2.2.2
          = rs.startWidgetY + rs.startHeight) ∧
      (|(handleResizeCalc rs cx cy true (gz : ℚ)).1 +
          (handleResizeCalc rs cx cy true (gz : ℚ)).2.2.1
          - (rs.startWidgetX + rs.startWidth)| ≤ (gz : ℚ) ∧
       |(handleResizeCalc rs cx cy true (gz : ℚ)).2.1 +
          (handleResizeCalc rs cx cy true (gz : ℚ)).2.2.2
          - (rs.startWidgetY + rs.startHeight)| ≤ (gz : ℚ))) := by
  have hgq : (0 : ℚ) < (gz : ℚ) := by exact_mod_cast hg
  constructor
  · intro hse
    have hcalcF : handleResizeCalc rs cx cy false (gz : ℚ) =
        (jsRound rs.startWidgetX, jsRound rs.startWidgetY,
         jsRound (max 20 (rs.startWidth + (cx - rs.startX))),
         jsRound (max 20 (rs.startHeight + (cy - rs.startY)))) := by
      simp [handleResizeCalc, hse]
    have hcalcT : handleResizeCalc rs cx cy true (gz : ℚ) =
        (jsRound (snapQ (gz : ℚ) rs.startWidgetX),
         jsRound (snapQ (gz : ℚ) rs.startWidgetY),
         jsRound (snapQ (gz : ℚ) (max 20 (rs.startWidth + (cx - rs.startX)))),
         jsRound (snapQ (gz : ℚ) (max 20 (rs.startHeight + (cy - rs.startY))))) := by
      simp [handleResizeCalc, hse]
    refine ⟨?_, ?_⟩
    · intro ax ay hax hay
      rw [hcalcF]
      constructor
      · show jsRound rs.startWidgetX = rs.startWidgetX
        rw [hax, jsRound_intCast]
      · show jsRound rs.startWidgetY = rs.startWidgetY
        rw [hay, jsRound_intCast]
    · rw [hcalcT]
      refine ⟨jsRound_snapQ gz _, jsRound_snapQ gz _, ?_, ?_⟩
      · show |jsRound (snapQ (gz : ℚ) rs.startWidgetX) - rs.startWidgetX|
            ≤ (gz : ℚ) / 2
        rw [jsRound_snapQ gz]
        exact abs_snapQ_sub_le _ hgq _
      · show |jsRound (snapQ (gz : ℚ) rs.startWidgetY) - rs.startWidgetY|
            ≤ (gz : ℚ) / 2
        rw [jsRound_snapQ gz]
        exact abs_snapQ_sub_le _ hgq _
  · intro hnw
    have hcalcF : handleResizeCalc rs cx cy false (gz : ℚ) =
        (jsRound (rs.startWidgetX +
           (rs.startWidth - max 20 (rs.startWidth - (cx - rs.startX)))),
         jsRound (rs.startWidgetY +
           (rs.startHeight - max 20 (rs.startHeight - (cy - rs.startY)))),
         jsRound (max 20 (rs.startWidth - (cx - rs.startX))),
         jsRound (max 20 (rs.startHeight - (cy - rs.startY)))) := by
      simp [handleResizeCalc, hnw]
    have hcalcT : handleResizeCalc rs cx cy true (gz : ℚ) =
        (jsRound (snapQ (gz : ℚ) (rs.startWidgetX +
           (rs.startWidth - max 20 (rs.startWidth - (cx - rs.startX))))),
         jsRound (snapQ (gz : ℚ) (rs.startWidgetY +
           (rs.startHeight - max 20 (rs.startHeight - (cy - rs.startY))))),
         jsRound (snapQ (gz : ℚ) (max 20 (rs.startWidth - (cx - rs.startX)))),
         jsRound (snapQ (gz : ℚ) (max 20 (rs.startHeight - (cy - rs.startY))))) := by
      simp [handleResizeCalc, hnw]
    refine ⟨?_, ?_, ?_⟩
    · intro ax ay sw sh dx dy hax hay hsw hsh hdx hdy
      rw [hcalcF]
      constructor
      · show jsRound (rs.startWidgetX +
            (rs.startWidth - max 20 (rs.startWidth - (cx - rs.startX)))) +
            jsRound (max 20 (rs.startWidth - (cx - rs.startX)))
            = rs.startWidgetX + rs.startWidth
        rw [hax, hsw, hdx]
        have hmax : max (20 : ℚ) ((sw : ℚ) - (dx : ℚ))
            = ((max 20 (sw - dx) : ℤ) : ℚ) := by
          push_cast
          rfl
        rw [hmax]
        have h1 : (ax : ℚ) + ((sw : ℚ) - ((max 20 (sw - dx) : ℤ) : ℚ))
            = ((ax + (sw - max 20 (sw - dx)) : ℤ) : ℚ) := by
          push_cast
          ring
        rw [h1, jsRound_intCast, jsRound_intCast]
        push_cast
        ring
      · show jsRound (rs.startWidgetY +
            (rs.startHeight - max 20 (rs.startHeight - (cy - rs.startY)))) +
            jsRound (max 20 (rs.startHeight - (cy - rs.startY)))
            = rs.startWidgetY + rs.startHeight
        rw [hay, hsh, hdy]
        have hmax : max (20 : ℚ) ((sh : ℚ) - (dy : ℚ))
            = ((max 20 (sh - dy) : ℤ) : ℚ) := by
          push_cast
          rfl
        rw [hmax]
        have h1 : (ay : ℚ) + ((sh : ℚ) - ((max 20 (sh - dy) : ℤ) : ℚ))
            = ((ay + (sh - max 20 (sh - dy)) : ℤ) : ℚ) := by
          push_cast
          ring
        rw [h1, jsRound_intCast, jsRound_intCast]
        push_cast
        ring
    · rw [hcalcT]
      show |jsRound (snapQ (gz : ℚ) (rs.startWidgetX +
            (rs.startWidth - max 20 (rs.startWidth - (cx - rs.startX))))) +
            jsRound (snapQ (gz : ℚ) (max 20 (rs.startWidth - (cx - rs.startX))))
            - (rs.startWidgetX + rs.startWidth)| ≤ (gz : ℚ)
      rw [jsRound_snapQ gz, jsRound_snapQ gz]
      set w0 := max 20 (rs.startWidth - (cx - rs.startX)) with hw0
      set x0 := rs.startWidgetX + (rs.startWidth - w0) with hx0
      have hsum : x0 + w0 = rs.startWidgetX + rs.startWidth := by
        rw [hx0]
        ring
      have hrw : snapQ (gz : ℚ) x0 + snapQ (gz : ℚ) w0
          - (rs.startWidgetX + rs.startWidth)
          = (snapQ (gz : ℚ) x0 - x0) + (snapQ (gz : ℚ) w0 - w0) := by
        rw [← hsum]
        ring
      rw [hrw]
      calc |(snapQ (gz : ℚ) x0 - x0) + (snapQ (gz : ℚ) w0 - w0)|
          ≤ |snapQ (gz : ℚ) x0 - x0| + |snapQ (gz : ℚ) w0 - w0| := abs_add _ _
        _ ≤ (gz : ℚ) / 2 + (gz : ℚ) / 2 :=
            add_le_add (abs_snapQ_sub_le _ hgq _) (abs_snapQ_sub_le _ hgq _)
        _ = (gz : ℚ) := by ring
    · rw [hcalcT]
      show |jsRound (snapQ (gz : ℚ) (rs.startWidgetY +
            (rs.startHeight - max 20 (rs.startHeight - (cy - rs.startY))))) +
            jsRound (snapQ (gz : ℚ) (max 20 (rs.startHeight - (cy - rs.startY))))
            - (rs.startWidgetY + rs.startHeight)| ≤ (gz : ℚ)
      rw [jsRound_snapQ gz, jsRound_snapQ gz]
      set h0 := max 20 (rs.startHeight - (cy - rs.startY)) with hh0
      set y0 := rs.startWidgetY + (rs.startHeight - h0) with hy0
      have hsum : y0 + h0 = rs.startWidgetY + rs.startHeight := by
        rw [hy0]
        ring
      have hrw : snapQ (gz : ℚ) y0 + snapQ (gz : ℚ) h0
          - (rs.startWidgetY + rs.startHeight)
          = (snapQ (gz : ℚ) y0 - y0) + (snapQ (gz : ℚ) h0 - h0) := by
        rw [← hsum]
        ring
      rw [hrw]
      calc |(snapQ (gz : ℚ) y0 - y0) + (snapQ (gz : ℚ) h0 - h0)|
          ≤ |snapQ (gz : ℚ) y0 - y0| + |snapQ (gz : ℚ) h0 - h0| := abs_add _ _
        _ ≤ (gz : ℚ) / 2 + (gz : ℚ) / 2 :=
            add_le_add (abs_snapQ_sub_le _ hgq _) (abs_snapQ_sub_le _ hgq _)
        _ = (gz : ℚ) := by ring

theorem c6_witness :
    |(handleResizeCalc rsC6 210 210 true ((10 : ℤ) : ℚ)).1 - rsC6.startWidgetX|
      ≤ ((10 : ℤ) : ℚ) / 2 :=
  ((c6_resize_anchor_rules rsC6 210 210 10 (by decide)).1 (by rfl)).2.2.2.1

/-! ## C8: container auto-bounds -/

theorem foldl_boundsStep_some (cat : Catalog) :
    ∀ (cs : List Widget) (a : ℚ × ℚ × ℚ × ℚ),
      cs.foldl (boundsStep cat) (some a)
        = some (((cs.filter (fun c => c.visible)).map
            (widgetDisplayBounds cat)).foldl mergeBounds a) := by
  intro cs
  induction cs with
  | nil => intro a; rfl
  | cons c cs' ih =>
    intro a
    obtain ⟨a1, a2, a3, a4⟩ := a
    by_cases hv : c.visible
    · simp only [List.foldl_cons, List.filter_cons, hv, List.map_cons]
      rw [show boundsStep cat (some (a1, a2, a3, a4)) c
          = some (mergeBounds (a1, a2, a3, a4) (widgetDisplayBounds cat c))
        from by simp [boundsStep, hv, mergeBounds]]
      exact ih _
    · simp only [List.foldl_cons, List.filter_cons]
      rw [show boundsStep cat (some (a1, a2, a3, a4)) c = some (a1, a2, a3, a4)
        from by simp [boundsStep, hv]]
      simp only [hv]
      simpa using ih _

theorem foldl_boundsStep_none (cat : Catalog) :
    ∀ cs : List Widget,
      cs.foldl (boundsStep cat) none
        = (match (cs.filter (fun c => c.visible)).map (widgetDisplayBounds cat)
            with
          | [] => none
          | b :: bs => some (bs.foldl mergeBounds
              (b.x, b.y, b.x + b.width, b.y + b.height))) := by
  intro cs
  induction cs with
  | nil => rfl
  | cons c cs' ih =>
    by_cases hv : c.visible
    · simp only [List.foldl_cons, List.filter_cons, hv, List.map_cons]
      rw [show boundsStep cat none c
          = some ((widgetDisplayBounds cat c).x, (widgetDisplayBounds cat c).y,
              (widgetDisplayBounds cat c).x + (widgetDisplayBounds cat c).width,
              (widgetDisplayBounds cat c).y + (widgetDisplayBounds cat c).height)
        from by simp [boundsStep, hv]]
      exact foldl_boundsStep_some cat cs' _
    · simp only [List.foldl_cons, List.filter_cons]
      rw [show boundsStep cat none c = none from by simp [boundsStep, hv]]
      simp only [hv]
      simpa using ih

theorem foldl_mergeBounds_components :
    ∀ (bs : List Bounds) (a1 a2 a3 a4 : ℚ),
      bs.foldl mergeBounds (a1, a2, a3, a4)
        = (bs.foldl (fun m bb => min m bb.x) a1,
           bs.foldl (fun m bb => min m bb.y) a2,
           bs.foldl (fun m bb => max m (bb.x + bb.width)) a3,
           bs.foldl (fun m bb => max m (bb.y + bb.height)) a4) := by
  intro bs
  induction bs with
  | nil => intro a1 a2 a3 a4; rfl
  | cons b bs' ih =>
    intro a1 a2 a3 a4
    simp only [List.foldl_cons, mergeBounds]
    exact ih _ _ _ _

/-- C8: `_getChildrenBounds` computes exactly the spec's union bounding
box of the visible children's effective bounds (`null` when there is no
visible child, including the empty list), and on two visible children
with effective bounds `(0,0,50,50)` and `(100,100,20,20)` it returns
`(0,0,120,120)`. -/
theorem c8_container_bounds :
    (∀ (cat : Catalog) (cs : List Widget),
      childrenBounds cat cs = childrenBoundsSpec cat cs) ∧
    childrenBounds cat0 [cw1, cw2] = some ⟨0, 0, 120, 120⟩ := by
  have hmain : ∀ (cat : Catalog) (cs : List Widget),
      childrenBounds cat cs = childrenBoundsSpec cat cs := by
    intro cat cs
    rw [childrenBounds, foldl_boundsStep_none cat cs, childrenBoundsSpec]
    cases hm : (cs.filter (fun c => c.visible)).map (widgetDisplayBounds cat)
      with
    | nil => rfl
    | cons b bs =>
      simp only [foldl_mergeBounds_components]
  refine ⟨hmain, ?_⟩
  rw [hmain]
  simp [childrenBoundsSpec, cw1, cw2, widgetDisplayBounds, widgetWidth,
    widgetHeight, firstTruthyQ, lookupProp, sizeAsDimension, JVal.truthy,
    JVal.toQ, cat0, WIDGETS_WITH_SIZE_AS_BOX, List.lookup]
  norm_num

/-! ## Forest lemmas for `findList` / `appendAux` / `removeRec` -/

theorem findList_cons_eq_none (i t : String) (n : Option String) (a b : ℚ)
    (p : List (String × JVal)) (cs : List Widget) (l v : Bool)
    (rest : List Widget) (j : String) :
    findList (Widget.mk i t n a b p cs l v :: rest) j = none ↔
      i ≠ j ∧ findList cs j = none ∧ findList rest j = none := by
  by_cases hi : i = j
  · simp [findList, hi]
  · rcases hc : findList cs j with _ | r
    · simp [findList, hi, hc]
    · simp [findList, hi, hc]

theorem findList_cons_self (w : Widget) (rest : List Widget) :
    findList (w :: rest) w.id = some w := by
  cases w
  simp [findList]

theorem findList_append (as : List Widget) :
    ∀ (bs : List Widget) (j : String),
      findList (as ++ bs) j
        = match findList as j with
          | some r => some r
          | none => findList bs j := by
  induction as using forestInduction with
  | hnil =>
    intro bs j
    simp [findList]
  | hcons i t n a b p cs l v rest ihcs ihrest =>
    intro bs j
    by_cases hi : i = j
    · simp [findList, hi]
    · rcases hf : findList cs j with _ | r
      · simp [findList, hi, hf, ihrest bs j]
      · simp [findList, hi, hf]

theorem appendAux_snd_false (ws : List Widget) :
    ∀ (pid : String) (w : Widget),
      (appendAux ws pid w).2 = false → (appendAux ws pid w).1 = ws := by
  induction ws using forestInduction with
  | hnil => intro pid w _; rfl
  | hcons i t n a b p cs l v rest ihcs ihrest =>
    intro pid w h
    by_cases hi : i = pid
    · simp [appendAux, hi] at h
    · rcases hc : appendAux cs pid w with ⟨cs', bc⟩
      cases bc
      · rcases hr : appendAux rest pid w with ⟨rest', br⟩
        cases br
        · have h1 : rest' = rest := by
            have h2 := ihrest pid w
            rw [hr] at h2
            simpa using h2
          simp [appendAux, hi, hc, hr, h1]
        · simp [appendAux, hi, hc, hr] at h
      · simp [appendAux, hi, hc] at h

theorem findList_none_appendAux (ws : List Widget) :
    ∀ (pid : String) (w : Widget),
      findList ws pid = none → appendAux ws pid w = (ws, false) := by
  induction ws using forestInduction with
  | hnil => intro pid w _; rfl
  | hcons i t n a b p cs l v rest ihcs ihrest =>
    intro pid w hf
    rw [findList_cons_eq_none] at hf
    obtain ⟨h1, h2, h3⟩ := hf
    simp [appendAux, h1, ihcs pid w h2, ihrest pid w h3]

theorem findList_some_appendAux (ws : List Widget) :
    ∀ (pid : String) (w : Widget) (t : Widget),
      findList ws pid = some t →
      (appendAux ws pid w).2 = true ∧
      findList (appendAux ws pid w).1 pid
        = some (t.withChildren (t.children ++ [w])) ∧
      (findList ws w.id = none →
        findList (appendAux ws pid w).1 w.id = some w) := by
  induction ws using forestInduction with
  | hnil =>
    intro pid w t h
    simp [findList] at h
  | hcons i t' n a b p cs l v rest ihcs ihrest =>
    intro pid w t hf
    by_cases hi : i = pid
    · subst hi
      have ht : t = Widget.mk i t' n a b p cs l v := by
        simp [findList] at hf
        exact hf.symm
      subst ht
      refine ⟨by simp [appendAux], ?_, ?_⟩
      · simp [appendAux, findList, Widget.withChildren]
      · intro hfresh
        rw [findList_cons_eq_none] at hfresh
        obtain ⟨h1, h2, h3⟩ := hfresh
        have happ : findList (cs ++ [w]) w.id = some w := by
          rw [findList_append cs [w] w.id, h2]
          exact findList_cons_self w []
        simp [appendAux, findList, h1, happ]
    · rcases hc : findList cs pid with _ | r
      · -- parent is further right: search continues in `rest`
        rcases hr : findList rest pid with _ | r2
        · simp [findList, hi, hc, hr] at hf
        · have hf2 : r2 = t := by
            simp [findList, hi, hc, hr] at hf
            exact hf
          subst hf2
          obtain ⟨ih1, ih2, ih3⟩ := ihrest pid w r2 hr
          rcases ha : appendAux rest pid w with ⟨rest', br⟩
          have hbr : br = true := by rw [ha] at ih1; exact ih1
          subst hbr
          have hcsapp : appendAux cs pid w = (cs, false) :=
            findList_none_appendAux cs pid w hc
          refine ⟨by simp [appendAux, hi, hcsapp, ha], ?_, ?_⟩
          · rw [ha] at ih2
            simp [appendAux, hi, hcsapp, ha, findList, hc, ih2]
          · intro hfresh
            rw [findList_cons_eq_none] at hfresh
            obtain ⟨h1, h2, h3⟩ := hfresh
            have := ih3 h3
            rw [ha] at this
            simp [appendAux, hi, hcsapp, ha, findList, h1, h2, this]
      · -- parent is inside the head's children
        have hrt : r = t := by
          simp [findList, hi, hc] at hf
          exact hf
        subst hrt
        obtain ⟨ih1, ih2, ih3⟩ := ihcs pid w r hc
        rcases ha : appendAux cs pid w with ⟨cs', bc⟩
        have hbc : bc = true := by rw [ha] at ih1; exact ih1
        subst hbc
        rw [ha] at ih2
        refine ⟨by simp [appendAux, hi, ha], ?_, ?_⟩
        · simp [appendAux, hi, ha, findList, ih2]
        · intro hfresh
          rw [findList_cons_eq_none] at hfresh
          obtain ⟨h1, h2, h3⟩ := hfresh
          have := ih3 h2
          rw [ha] at this
          simp [appendAux, hi, ha, findList, h1, this]

/-! ## C1: `addWidget` placement and reachability -/

/-- C1 counterexample: `addWidget('text', 5, 5, 'ghost')` on a blank
layout whose catalog knows `text` but whose tree has no widget `ghost`
leaves the tree completely empty — the widget is neither attached to a
parent nor appended to the root list, and `findWidget` cannot reach it —
even though the widget object is still returned (and a snapshot taken). -/
theorem c1_counterexample :
    (ed0.addWidget "text" 5 5 (some "ghost") "w_new").1.findWidget "w_new"
        = none ∧
    (ed0.addWidget "text" 5 5 (some "ghost") "w_new").1.layout.widgets = [] ∧
    (ed0.addWidget "text" 5 5 (some "ghost") "w_new").2
        = some (Widget.mk "w_new" "text" none 5 5 [] [] false true) := by
  have hadd : ed0.addWidget "text" 5 5 (some "ghost") "w_new"
      = ({ ed0 with
            layout := { ed0.layout with widgets := [] },
            isDirty := true,
            history := ed0.history.snapshotOp
              { ed0.layout with widgets := [] } },
         some (Widget.mk "w_new" "text" none 5 5 [] [] false true)) := by
    simp [EditorState.addWidget, ed0, cat0, textMeta, defaultProps,
      layout0, appendAux]
  rw [hadd]
  refine ⟨?_, by simp [ed0, layout0], rfl⟩
  simp [EditorState.findWidget, findList, ed0, layout0]

/-- C1 amended: the created widget is appended to the children of the
widget with id `parentId` when one exists; it is appended to the root
list when `parentId` is null; but when `parentId` is non-null and no
widget with that id exists, the widget is inserted nowhere — the tree is
unchanged and `findWidget` cannot reach it — although it is still
returned to the caller. -/
theorem c1_addWidget_placement (s : EditorState) (ty : String) (x y : ℚ)
    (pid : Option String) (newId : String) (md : WidgetMeta)
    (hmd : s.widgetMetadataByType.lookup ty = some md)
    (hfresh : findList s.layout.widgets newId = none) :
    ((s.addWidget ty x y pid newId).2
        = some (Widget.mk newId ty none x y (defaultProps md) [] false true)) ∧
    (pid = none →
      (s.addWidget ty x y pid newId).1.layout.widgets
          = s.layout.widgets
            ++ [Widget.mk newId ty none x y (defaultProps md) [] false true] ∧
      (s.addWidget ty x y pid newId).1.findWidget newId
          = some (Widget.mk newId ty none x y (defaultProps md) [] false
              true)) ∧
    (∀ p, pid = some p → p ≠ "" →
      ∀ t, findList s.layout.widgets p = some t →
      (s.addWidget ty x y pid newId).1.findWidget p
          = some (t.withChildren (t.children
              ++ [Widget.mk newId ty none x y (defaultProps md) [] false
                  true])) ∧
      (s.addWidget ty x y pid newId).1.findWidget newId
          = some (Widget.mk newId ty none x y (defaultProps md) [] false
              true)) ∧
    (∀ p, pid = some p → p ≠ "" → findList s.layout.widgets p = none →
      (s.addWidget ty x y pid newId).1.layout.widgets = s.layout.widgets ∧
      (s.addWidget ty x y pid newId).1.findWidget newId = none) := by
  refine ⟨?_, ?_, ?_, ?_⟩
  · simp [EditorState.addWidget, hmd]
  · intro hp
    subst hp
    constructor
    · simp [EditorState.addWidget, hmd]
    · simp only [EditorState.addWidget, hmd, EditorState.findWidget]
      rw [findList_append _ _ newId]
      rw [show findList s.layout.widgets newId = none from hfresh]
      exact findList_cons_self _ []
  · intro p hp hpe t hfind
    subst hp
    obtain ⟨ih1, ih2, ih3⟩ := findList_some_appendAux s.layout.widgets p
      (Widget.mk newId ty none x y (defaultProps md) [] false true) t hfind
    constructor
    · simpa [EditorState.addWidget, hmd, hpe, EditorState.findWidget]
        using ih2
    · simpa [EditorState.addWidget, hmd, hpe, EditorState.findWidget]
        using ih3 hfresh
  · intro p hp hpe hnone
    subst hp
    have happ := findList_none_appendAux s.layout.widgets p
      (Widget.mk newId ty none x y (defaultProps md) [] false true) hnone
    constructor
    · simp [EditorState.addWidget, hmd, hpe, happ]
    · simp [EditorState.addWidget, hmd, hpe, happ, EditorState.findWidget,
        hfresh]

theorem c1_witness :
    (ed0.addWidget "text" 5 5 none "w_new").1.findWidget "w_new"
      = some (Widget.mk "w_new" "text" none 5 5 (defaultProps textMeta) []
          false true) :=
  ((c1_addWidget_placement ed0 "text" 5 5 none "w_new" textMeta
    (by rfl) (by simp [ed0, layout0, findList])).2.1 rfl).2

/-! ## C3: selection vs. tree membership -/

/-- C3 counterexample: starting from an initialised blank editor, add a
widget, select it, then `undo()`.  The restored layout no longer
contains the widget, but the selection still does — restoration does not
prune the selection, so the subset invariant fails at this reachable
state. -/
theorem c3_counterexample :
    (((ed0.addWidget "text" 1 1 none "wA").1.select ["wA"] false).undo
        |>.selectedWidgets) = ["wA"] ∧
    (((ed0.addWidget "text" 1 1 none "wA").1.select ["wA"] false).undo
        |>.findWidget "wA") = none := by
  have hL : ¬ layoutA = layout0 := by
    simp [layoutA, layout0]
  have h0 : ed0.history = ⟨[layout0], 0, 50, some layout0, false⟩ := by
    simp [ed0, HistoryState.snapshotOp, freshHistory]
  have hadd : (ed0.addWidget "text" 1 1 none "wA").1
      = ⟨layoutA, [], cat0, true,
         ⟨[layout0, layoutA], 1, 50, some layoutA, false⟩⟩ := by
    have hsnap : (HistoryState.mk [layout0] 0 50 (some layout0)
        false).snapshotOp layoutA
        = ⟨[layout0, layoutA], 1, 50, some layoutA, false⟩ := by
      simp [HistoryState.snapshotOp, hL]
    have hfr : freshHistory.snapshotOp layout0
        = ⟨[layout0], 0, 50, some layout0, false⟩ := by
      simp [HistoryState.snapshotOp, freshHistory]
    simp only [EditorState.addWidget]
    rw [show ed0.widgetMetadataByType.lookup "text" = some textMeta from rfl]
    simp only [ed0]
    rw [show ({ layout0 with
        widgets := layout0.widgets ++
          [Widget.mk "wA" "text" none 1 1 (defaultProps textMeta) [] false
            true] } : Layout) = layoutA from by
      simp [layout0, layoutA, wA0, defaultProps, textMeta]]
    rw [hfr, hsnap]
  have hsel : ((ed0.addWidget "text" 1 1 none "wA").1.select ["wA"] false)
      = ⟨layoutA, ["wA"], cat0, true,
         ⟨[layout0, layoutA], 1, 50, some layoutA, false⟩⟩ := by
    rw [hadd]
    simp [EditorState.select]
  rw [hsel]
  have hundo : (HistoryState.mk [layout0, layoutA] 1 50 (some layoutA)
      false).undoOp layoutA = (⟨[layout0, layoutA], 0, 50, some layout0,
        false⟩, layout0) := by
    simp [HistoryState.undoOp, HistoryState.canUndo, HistoryState.restoreOp]
  have hfin : ((⟨layoutA, ["wA"], cat0, true,
      ⟨[layout0, layoutA], 1, 50, some layoutA, false⟩⟩ :
        EditorState).undo)
      = ⟨layout0, ["wA"], cat0, true,
         ⟨[layout0, layoutA], 0, 50, some layout0, false⟩⟩ := by
    simp [EditorState.undo, hundo]
  rw [hfin]
  constructor
  · rfl
  · simp [EditorState.findWidget, layout0, findList]

/-- C3 amended: `removeWidget(id)` does delete the removed id from the
selection (the selection becomes its filtrate), but restoring a snapshot
via `undo()`/`redo()` leaves the selection completely unchanged — it is
not pruned to the ids of the restored layout, so the subset invariant
does not hold at all reachable states. -/
theorem c3_selection_pruning (s : EditorState) (i : String) :
    ((removeRec s.layout.widgets i).isSome →
      (s.removeWidget i).selectedWidgets
        = s.selectedWidgets.filter (fun j => j ≠ i) ∧
      i ∉ (s.removeWidget i).selectedWidgets) ∧
    s.undo.selectedWidgets = s.selectedWidgets ∧
    s.redo.selectedWidgets = s.selectedWidgets := by
  refine ⟨?_, ?_, ?_⟩
  · intro h
    rcases hr : removeRec s.layout.widgets i with _ | ws'
    · rw [hr] at h
      cases h
    · constructor
      · simp [EditorState.removeWidget, hr]
      · simp [EditorState.removeWidget, hr]
  · rcases he : s.history.undoOp s.layout with ⟨h', l'⟩
    simp [EditorState.undo, he]
  · rcases he : s.history.redoOp s.layout with ⟨h', l'⟩
    simp [EditorState.redo, he]

theorem c3_witness :
    "wA" ∉ ((ed0.addWidget "text" 1 1 none "wA").1.removeWidget
        "wA").selectedWidgets :=
  ((c3_selection_pruning (ed0.addWidget "text" 1 1 none "wA").1 "wA").1
    (by simp [EditorState.addWidget, ed0, cat0, textMeta, layout0,
      removeRec])).2

/-! ## C2: one snapshot per removed widget -/

theorem removeRec_count (ws : List Widget) :
    ∀ (j : String) (ws' : List Widget),
      removeRec ws j = some ws' → widgetCount ws' < widgetCount ws := by
  induction ws using forestInduction with
  | hnil =>
    intro j ws' h
    simp [removeRec] at h
  | hcons i t n a b p cs l v rest ihcs ihrest =>
    intro j ws' h
    by_cases hi : i = j
    · simp [removeRec, hi] at h
      rw [← h]
      simp only [widgetCount]
      omega
    · rcases hc : removeRec cs j with _ | cs'
      · rcases hr : removeRec rest j with _ | rest'
        · simp [removeRec, hi, hc, hr] at h
        · simp [removeRec, hi, hc, hr] at h
          rw [← h]
          simp only [widgetCount]
          have := ihrest j rest' hr
          omega
      · simp [removeRec, hi, hc] at h
        rw [← h]
        simp only [widgetCount]
        have := ihcs j cs' hc
        omega

/-- A `snapshot()` that actually pushes: not restoring, layout changed,
cursor at the top, capacity not reached. -/
theorem snapshotOp_push (h : HistoryState) (l : Layout)
    (hr : h.isRestoring = false) (hl : some l ≠ h.lastSnapshot)
    (hidx : h.currentIndex = (h.history.length : ℤ) - 1)
    (hcap : h.history.length < h.maxHistory) :
    h.snapshotOp l = ⟨h.history ++ [l], h.currentIndex + 1, h.maxHistory,
      some l, h.isRestoring⟩ := by
  unfold HistoryState.snapshotOp
  rw [if_neg (by simp [hr]), if_neg hl]
  have htoNat : (h.currentIndex + 1).toNat = h.history.length := by omega
  rw [htoNat, List.take_length]
  rw [if_neg (by simp; omega)]

/-- C2 amended: each `removeWidget` call that actually removes a widget
pushes its own history snapshot — deleting the selection with the
keyboard therefore produces one snapshot per removed widget, not one
snapshot in total. -/
theorem c2_remove_snapshot_per_widget (s : EditorState) (i : String)
    (ws' : List Widget)
    (hrem : removeRec s.layout.widgets i = some ws')
    (hidx : s.history.currentIndex = (s.history.history.length : ℤ) - 1)
    (hcap : s.history.history.length < s.history.maxHistory)
    (hlast : s.history.lastSnapshot = some s.layout)
    (hrest : s.history.isRestoring = false) :
    (s.removeWidget i).history.history
        = s.history.history ++ [{ s.layout with widgets := ws' }] ∧
    (s.removeWidget i).history.history.length
        = s.history.history.length + 1 ∧
    (s.removeWidget i).history.currentIndex = s.history.currentIndex + 1 ∧
    (s.removeWidget i).history.lastSnapshot
        = some { s.layout with widgets := ws' } ∧
    (s.removeWidget i).layout = { s.layout with widgets := ws' } := by
  have hneq : some ({ s.layout with widgets := ws' } : Layout)
      ≠ s.history.lastSnapshot := by
    rw [hlast]
    intro he
    rw [Option.some.injEq] at he
    have hw : ws' = s.layout.widgets := congrArg Layout.widgets he
    have hlt := removeRec_count s.layout.widgets i ws' hrem
    rw [hw] at hlt
    exact lt_irrefl _ hlt
  have hpush := snapshotOp_push s.history { s.layout with widgets := ws' }
    hrest hneq hidx hcap
  simp [EditorState.removeWidget, hrem, hpush]

theorem c2_witness :
    (edC2w.removeWidget "wA").history.history.length
      = edC2w.history.history.length + 1 :=
  (c2_remove_snapshot_per_widget edC2w "wA" []
    (by simp [edC2w, layoutA, layout0, wA0, removeRec])
    (by simp [edC2w]) (by simp [edC2w]) (by rfl) (by rfl)).2.1

theorem ed0_history :
    ed0.history = ⟨[layout0], 0, 50, some layout0, false⟩ := by
  simp [ed0, HistoryState.snapshotOp, freshHistory]

/-- C2 counterexample: with two selected widgets, the keyboard-delete
path (`removeWidget` per id) pushes two history snapshots — the history
grows by 2 entries, not by the single snapshot the claim asserts. -/
theorem c2_counterexample :
    edC2s.selectedWidgets.length = 2 ∧
    (deleteSelected edC2s).history.history.length
        = edC2s.history.history.length + 2 ∧
    ¬ ((deleteSelected edC2s).history.history.length
        = edC2s.history.history.length + 1) := by
  have hset : ed0.setLayout layoutAB
      = ⟨layoutAB, [], cat0, false,
         ⟨[layoutAB], 0, 50, some layoutAB, false⟩⟩ := by
    have hh : ed0.history.clearOp.snapshotOp layoutAB
        = ⟨[layoutAB], 0, 50, some layoutAB, false⟩ := by
      rw [ed0_history]
      simp [HistoryState.clearOp, HistoryState.snapshotOp]
    simp only [EditorState.setLayout, hh]
    simp [ed0]
  have hsel : edC2s
      = ⟨layoutAB, ["wA", "wB"], cat0, false,
         ⟨[layoutAB], 0, 50, some layoutAB, false⟩⟩ := by
    rw [edC2s, hset]
    simp [EditorState.select]
  have hrm1 : ((⟨layoutAB, ["wA", "wB"], cat0, false,
      ⟨[layoutAB], 0, 50, some layoutAB, false⟩⟩ :
        EditorState).removeWidget "wA")
      = ⟨layoutOnlyB, ["wB"], cat0, true,
         ⟨[layoutAB, layoutOnlyB], 1, 50, some layoutOnlyB, false⟩⟩ := by
    have hr : removeRec layoutAB.widgets "wA" = some [wB0] := by
      simp [layoutAB, layout0, wA0, wB0, removeRec]
    have hlob : ({ layoutAB with widgets := [wB0] } : Layout)
        = layoutOnlyB := by
      simp [layoutAB, layoutOnlyB, layout0]
    have hsnap : (HistoryState.mk [layoutAB] 0 50 (some layoutAB)
        false).snapshotOp layoutOnlyB
        = ⟨[layoutAB, layoutOnlyB], 1, 50, some layoutOnlyB, false⟩ := by
      have hne : ¬ (layoutOnlyB = layoutAB) := by
        simp [layoutAB, layoutOnlyB, layout0, wA0, wB0]
      simp [HistoryState.snapshotOp, hne]
    simp only [EditorState.removeWidget, hr, hlob]
    simp [hsnap]
  have hrm2 : ((⟨layoutOnlyB, ["wB"], cat0, true,
      ⟨[layoutAB, layoutOnlyB], 1, 50, some layoutOnlyB, false⟩⟩ :
        EditorState).removeWidget "wB")
      = ⟨layout0, [], cat0, true,
         ⟨[layoutAB, layoutOnlyB, layout0], 2, 50, some layout0, false⟩⟩ := by
    have hr : removeRec layoutOnlyB.widgets "wB" = some [] := by
      simp [layoutOnlyB, layout0, wB0, removeRec]
    have hl0 : ({ layoutOnlyB with widgets := ([] : List Widget) } : Layout)
        = layout0 := by
      simp [layoutOnlyB, layout0]
    have hsnap : (HistoryState.mk [layoutAB, layoutOnlyB] 1 50
        (some layoutOnlyB) false).snapshotOp layout0
        = ⟨[layoutAB, layoutOnlyB, layout0], 2, 50, some layout0, false⟩ := by
      have hne : ¬ (layout0 = layoutOnlyB) := by
        simp [layoutOnlyB, layout0, wB0]
      simp [HistoryState.snapshotOp, hne]
    simp only [EditorState.removeWidget, hr, hl0]
    simp [hsnap]
  have hdel : deleteSelected edC2s
      = ⟨layout0, [], cat0, true,
         ⟨[layoutAB, layoutOnlyB, layout0], 2, 50, some layout0, false⟩⟩ := by
    rw [deleteSelected, hsel]
    simp only [List.length_cons, List.length_nil]
    rw [if_pos (by omega)]
    simp only [List.foldl_cons, List.foldl_nil]
    rw [hrm1, hrm2]
  refine ⟨?_, ?_, ?_⟩
  · rw [hsel]
    rfl
  · rw [hdel, hsel]
    rfl
  · rw [hdel, hsel]
    simp
